import Mathlib

/-!
# Verification of the marketplace flow engine and client services

Shallow embedding of the TypeScript sources of `commercetests/marketplace`:
the flow execution engine (`flowService`), the agent and integration service
boundaries, the blast-valve pressure state machine, the triple radial lock
manager, and the API-key listing of the database service.  External effects
(HTTP calls to LLM/SaaS providers, Firestore writes, logging) are abstracted
as oracle parameters or no-ops; everything else follows the source line by
line, including the call sites of `executeNode` that pass five arguments to
the six-parameter method.
-/

namespace Marketplace

/-- JavaScript-like runtime values, as far as the verified fragments need
them: `undefined`, booleans, strings, rationals standing for JS numbers,
Firestore `Timestamp`s and JS `Date`s (both carrying their instant). -/
inductive Val where
  | undef
  | boolV (b : Bool)
  | str (s : String)
  | num (q : ℚ)
  | timestamp (t : Nat)
  | date (t : Nat)
deriving DecidableEq, Repr

/-- Association-list update with JS-object/`Map.set` semantics: `m[k] = v`
replaces the binding when the key is present and appends it otherwise (every
record built here starts empty and is only updated through `aset`, so keys
are never duplicated, exactly as in a JS object). -/
def aset {α : Type} : List (String × α) → String → α → List (String × α)
  | [], k, v => [(k, v)]
  | p :: rest, k, v => if p.1 == k then (k, v) :: rest else p :: aset rest k v

/-- Association-list lookup (`m[k]`, `undefined` becomes `none`). -/
def aget {α : Type} (m : List (String × α)) (k : String) : Option α :=
  (m.find? (fun p => p.1 == k)).map (fun p => p.2)

/-- Records (JS objects) holding arbitrary values. -/
abbrev RecordV := List (String × Val)

/-- `pat` is a leading run of `l` (character-list version). -/
def charsLead : List Char → List Char → Bool
  | [], _ => true
  | _ :: _, [] => false
  | a :: as, b :: bs => a == b && charsLead as bs

/-- `pat` occurs contiguously somewhere in `l`. -/
def charsHave (pat : List Char) : List Char → Bool
  | [] => charsLead pat []
  | c :: rest => charsLead pat (c :: rest) || charsHave pat rest

/-- JS `s.includes(pat)`. -/
def strHas (s pat : String) : Bool :=
  charsHave pat.toList s.toList

/-- A React Flow node as `flowService` consumes it: only `id`, `type` and the
`data` record are ever read by the engine. -/
structure Node where
  id : String
  type : Option String
  data : RecordV := []
deriving DecidableEq, Repr

/-- A React Flow edge: `source` and `target` node ids. -/
structure Edge where
  source : String
  target : String
deriving DecidableEq, Repr

/-- Per-node configuration, `nodeConfigs[nodeId]`; the engine itself only
reads `errorHandling` (the agent/integration fields are consumed inside the
oracle that stands for the HTTP services). -/
structure NodeConfig where
  errorHandling : Option String := none
deriving DecidableEq, Repr

/-- `FlowExecution` from flowService: status, per-node results and errors,
timestamps (as abstract clock readings) and accumulated cost. -/
inductive FlowStatus where
  | running
  | completed
  | error
  | paused
deriving DecidableEq, Repr

structure FlowExecution where
  id : String
  status : FlowStatus
  currentNode : Option String := none
  results : RecordV := []
  errors : List (String × String) := []
  startTime : Nat
  endTime : Option Nat := none
  totalCost : ℚ := 0
deriving DecidableEq, Repr

/-- The result record returned by `agentService.executeAgent` /
`integrationService.executeIntegration` as `executeNode` consumes it:
`success`, `output`, `error`, `cost` (integration results carry no cost). -/
structure ServiceResult where
  success : Bool
  output : Val := Val.undef
  error : Option String := none
  cost : Option ℚ := none
deriving DecidableEq, Repr

/-- Oracle standing for `executeAgentNode` / `executeIntegrationNode`: both
delegate to an HTTP service and, by construction of those services, always
resolve with a `ServiceResult`.  Arguments mirror the source call:
node id, node, config, current input, `execution.results` so far. -/
abbrev NodeExec :=
  String → Node → NodeConfig → RecordV → RecordV → ServiceResult

/-- `buildExecutionGraph`: initialise every node id with an empty successor
list, then push each edge's target onto its source's list (a `Map` in the
source; `aset`/`aget` reproduce `set`/`get || []`). -/
def buildExecutionGraph (nodes : List Node) (edges : List Edge) :
    List (String × List String) :=
  let g := nodes.foldl (fun g n => aset g n.id []) []
  edges.foldl
    (fun g e => aset g e.source (((aget g e.source).getD []) ++ [e.target])) g

/-- JS `x || d` on an optional string: `undefined` and the empty string both
fall back to the default. -/
def orElseStr (o : Option String) (d : String) : String :=
  match o with
  | some s => if s == "" then d else s
  | none => d

/-- The TypeError raised when `executeNode` is entered with `undefined` for
the `execution` parameter: its first statement assigns
`execution.currentNode`.  This happens on every recursive successor call of a
non-start node, because those call sites pass five arguments to the
six-parameter method, shifting the input record into the `nodes` position and
leaving `execution` undefined.  (The V8 message quotes the property name;
the quotes are elided here.) -/
def undefinedExecutionError : String :=
  "Cannot set properties of undefined (setting currentNode)"

/-- The message a failing node throws: `result.error || <branch default>` —
`Agent execution failed` in the agent arm of the dispatch,
`Integration execution failed` in the integration arm (a node classified as
neither never fails). -/
def nodeFailMessage (nodeId : String) (node : Node) (r : ServiceResult) :
    String :=
  if node.type == some "agent" || strHas nodeId "agent" then
    orElseStr r.error "Agent execution failed"
  else
    orElseStr r.error "Integration execution failed"

/-- Outcome of one `executeNode` call: normal return or a thrown error, in
both cases together with the mutated `execution` record (shared state in the
source). -/
inductive RunResult where
  | ok (e : FlowExecution)
  | thrown (msg : String) (e : FlowExecution)
deriving DecidableEq, Repr

/-- Sequential `for (const nextNodeId of nextNodes) await step(...)` with
exception propagation and state threading. -/
def runSeq (step : String → FlowExecution → Option RunResult) :
    List String → FlowExecution → Option RunResult
  | [], e => some (RunResult.ok e)
  | n :: rest, e =>
    match step n e with
    | none => none
    | some (RunResult.thrown m e2) => some (RunResult.thrown m e2)
    | some (RunResult.ok e2) => runSeq step rest e2

/-- `FlowService.executeNode`, fuel-indexed (`none` = the given budget is
exhausted, i.e. the source recursion has not returned).  Faithful to the
source: `currentNode` is set first; a missing node throws; start nodes
recurse into successors with the correct six arguments; agent/integration
nodes consult the oracle, throw on `success === false` with
`result.error || <default>`; on success the output is stored under the node
id and the cost added; the successor loop and the `skip` loop call
`executeNode` with five arguments, so their first iteration throws the
`undefined execution` TypeError before any other effect; the catch block
records the message under the node id and applies
`config.errorHandling || 'stop'`: `stop` rethrows, `skip` runs the (broken)
successor loop, `retry` re-invokes the same node with correct arguments. -/
def executeNodeF (exec : NodeExec) (fuel : Nat) (nodeId : String)
    (graph : List (String × List String)) (nodes : List Node)
    (input : RecordV) (nodeConfigs : List (String × NodeConfig))
    (e0 : FlowExecution) : Option RunResult :=
  match fuel with
  | 0 => none
  | Nat.succ fuel =>
    let e1 := { e0 with currentNode := some nodeId }
    match nodes.find? (fun n => n.id == nodeId) with
    | none => some (RunResult.thrown ("Node " ++ nodeId ++ " not found") e1)
    | some node =>
      let config := (aget nodeConfigs nodeId).getD {}
      if node.type == some "start" || strHas nodeId "start" then
        runSeq (fun n e => executeNodeF exec fuel n graph nodes input nodeConfigs e)
          ((aget graph nodeId).getD []) e1
      else
        let tried : Except String (Val × ℚ) :=
          if node.type == some "agent" || strHas nodeId "agent" then
            let r := exec nodeId node config input e1.results
            if r.success then Except.ok (r.output, r.cost.getD 0)
            else Except.error (orElseStr r.error "Agent execution failed")
          else if node.type == some "integration" || strHas nodeId "integration" then
            let r := exec nodeId node config input e1.results
            if r.success then Except.ok (r.output, (0 : ℚ))
            else Except.error (orElseStr r.error "Integration execution failed")
          else Except.ok (Val.undef, (0 : ℚ))
        let onErr : String → FlowExecution → Option RunResult := fun msg e =>
          let e2 := { e with errors := aset e.errors nodeId msg }
          let eh := orElseStr config.errorHandling "stop"
          if eh == "stop" then some (RunResult.thrown msg e2)
          else if eh == "skip" then
            match (aget graph nodeId).getD [] with
            | [] => some (RunResult.ok e2)
            | _ :: _ => some (RunResult.thrown undefinedExecutionError e2)
          else if eh == "retry" then
            executeNodeF exec fuel nodeId graph nodes input nodeConfigs e2
          else some (RunResult.ok e2)
        match tried with
        | Except.error msg => onErr msg e1
        | Except.ok (result, cost) =>
          let e2 := { e1 with results := aset e1.results nodeId result,
                              totalCost := e1.totalCost + cost }
          match (aget graph nodeId).getD [] with
          | [] => some (RunResult.ok e2)
          | _ :: _ => onErr undefinedExecutionError e2

/-- `FlowService.executeFlow`, fuel-indexed.  Always allocates a fresh
execution record `flow_<now>`; with no start node (no node of type `start`
and no id containing `start`) the catch stores `No start node found`;
otherwise it walks from the start node and on return (or throw) marks the
execution `completed` (or `error` with the message under `flow`), setting an
end time.  `logFlowExecution` swallows all its own errors and is modelled as
a no-op; the function has no other throw path, so the promise never
rejects. -/
def executeFlowF (exec : NodeExec) (fuel : Nat) (nodes : List Node)
    (edges : List Edge) (initialInput : RecordV)
    (nodeConfigs : List (String × NodeConfig)) (now : Nat) :
    Option (String × FlowExecution) :=
  let executionId := "flow_" ++ toString now
  let execution : FlowExecution :=
    { id := executionId, status := FlowStatus.running, startTime := now }
  match nodes.find? (fun n => n.type == some "start" || strHas n.id "start") with
  | none =>
    some (executionId,
      { execution with status := FlowStatus.error,
                       errors := aset execution.errors "flow" "No start node found",
                       endTime := some now })
  | some startNode =>
    let graph := buildExecutionGraph nodes edges
    match executeNodeF exec fuel startNode.id graph nodes initialInput nodeConfigs execution with
    | none => none
    | some (RunResult.ok e) =>
      some (executionId, { e with status := FlowStatus.completed, endTime := some now })
    | some (RunResult.thrown m e) =>
      some (executionId,
        { e with status := FlowStatus.error, errors := aset e.errors "flow" m,
                 endTime := some now })

/-! ## Service boundaries (`agentService`, `integrationService`) -/

/-- Truth of the `Except` result head (the JS promise resolved rather than
rejected). -/
def exceptOk {α : Type} : Except String α → Bool
  | Except.ok _ => true
  | Except.error _ => false

/-- The `try { body } catch (error) { return fallback(message) }` shape shared
by both service boundaries: a thrown error is converted into a resolved
fallback result. -/
def catchResolve {α : Type} (fallback : String → α) (a : Except String α) :
    Except String α :=
  match a with
  | Except.ok r => Except.ok r
  | Except.error msg => Except.ok (fallback msg)

/-- `LLMConfig` of an agent, the fields `executeAgent` reads. -/
structure LLMConfig where
  provider : String
  model : String
  apiKey : String
deriving DecidableEq, Repr

/-- An agent as `executeAgent` consumes it. -/
structure AgentE where
  llm : LLMConfig
  systemPrompt : String
  userPrompt : String
deriving DecidableEq, Repr

/-- Payload of a successful provider call (`result.content`,
`result.tokensUsed`). -/
structure LLMOut where
  content : Val
  tokensUsed : Option ℚ := none
deriving DecidableEq, Repr

/-- `ExecutionResult` of agentService. -/
structure ExecutionResultE where
  success : Bool
  output : Val := Val.undef
  error : Option String := none
  executionTime : ℚ := 0
  tokensUsed : Option ℚ := none
  model : Option String := none
  cost : Option ℚ := none
deriving DecidableEq, Repr

/-- Oracle standing for the per-provider HTTP executors
(`executeOpenAI`, `executeAnthropic`, `executeGoogle`, `executeMistral`,
`executeLlama`): given provider, config, system prompt, processed prompt and
api key they resolve with an `LLMOut` or throw a provider-specific
`Error` (the `Except.error` branch). -/
abbrev LLMCall :=
  String → LLMConfig → String → String → String → Except String LLMOut

/-- The five providers of `executeAgent`'s switch. -/
def isLLMProvider (p : String) : Bool :=
  p == "openai" || p == "anthropic" || p == "google" || p == "mistral" ||
    p == "llama"

/-- `AgentService.executeAgent`.  The whole body sits in one `try`: resolve
the api key (system key, else the agent's own, else throw), process the
prompt (template substitution, abstracted as `processPrompt`), dispatch on
the provider (unknown providers throw), build the success result with the
cost computed from the token count (`calculateCost`, abstracted); the
`catch` turns any thrown error into a resolved
`{ success: false, output: null, error: message }` result.  `logExecution`
swallows its own errors and is modelled as a no-op.  The outer `Except` is
the promise: by construction the function only ever resolves. -/
def executeAgentM (serviceKeys : List (String × String)) (callLLM : LLMCall)
    (processPrompt : String → String) (calculateCost : String → String → ℚ → ℚ)
    (agent : AgentE) (elapsed : ℚ) : Except String ExecutionResultE :=
  let attempt : Except String ExecutionResultE :=
    let apiKey := orElseStr (aget serviceKeys agent.llm.provider) agent.llm.apiKey
    if apiKey == "" then
      Except.error ("API key not found for provider: " ++ agent.llm.provider)
    else
      let processedPrompt := processPrompt agent.userPrompt
      if isLLMProvider agent.llm.provider then
        match callLLM agent.llm.provider agent.llm agent.systemPrompt
            processedPrompt apiKey with
        | Except.error m => Except.error m
        | Except.ok out =>
          Except.ok
            { success := true, output := out.content, executionTime := elapsed,
              tokensUsed := out.tokensUsed, model := some agent.llm.model,
              cost := some (calculateCost agent.llm.provider agent.llm.model
                (out.tokensUsed.getD 0)) }
      else
        Except.error ("Unsupported LLM provider: " ++ agent.llm.provider)
  catchResolve
    (fun msg => { success := false, output := Val.undef, error := some msg,
                  executionTime := elapsed })
    attempt

/-- `IntegrationExecutionContext` of integrationService. -/
structure IntegrationExecutionContext where
  action : String
  parameters : RecordV
  apiKey : String
  input : RecordV
deriving DecidableEq, Repr

/-- `IntegrationResult` of integrationService. -/
structure IntegrationResultE where
  success : Bool
  output : Val := Val.undef
  error : Option String := none
deriving DecidableEq, Repr

/-- Oracle standing for the per-provider executors (`executeSlack`,
`executeTwitter`, ...): given provider, action, processed parameters and api
key they resolve with an `IntegrationResult` or throw a provider-specific
`Error`. -/
abbrev IntegrationCall :=
  String → String → RecordV → String → Except String IntegrationResultE

/-- The eight providers of `executeIntegration`'s switch. -/
def isIntegrationProvider (p : String) : Bool :=
  p == "slack" || p == "twitter" || p == "linkedin" || p == "meta-ads" ||
    p == "google-ads" || p == "hubspot" || p == "mailchimp" || p == "sendgrid"

/-- `IntegrationService.executeIntegration`.  One `try` around the body:
resolve the api key (service map, else the context's, else throw), process
the parameters (template substitution, abstracted as `processParams`),
dispatch on the provider (unknown providers throw); the `catch` resolves with
`{ success: false, output: null, error: message }`.  By construction the
function only ever resolves. -/
def executeIntegrationM (serviceKeys : List (String × String))
    (callProvider : IntegrationCall)
    (processParams : RecordV → RecordV → RecordV) (provider : String)
    (context : IntegrationExecutionContext) : Except String IntegrationResultE :=
  let attempt : Except String IntegrationResultE :=
    let apiKey := orElseStr (aget serviceKeys provider) context.apiKey
    if apiKey == "" then
      Except.error ("API key not found for provider: " ++ provider)
    else
      let processedParams := processParams context.parameters context.input
      if isIntegrationProvider provider then
        callProvider provider context.action processedParams apiKey
      else
        Except.error ("Unsupported integration provider: " ++ provider)
  catchResolve
    (fun msg => { success := false, output := Val.undef, error := some msg })
    attempt

/-! ## FlowExecutor component (`stopExecution`) -/

/-- The component-local state of `FlowExecutor`: the last polled execution
snapshot, the `isRunning` flag and the input textarea. -/
structure FlowExecutorState where
  execution : Option FlowExecution
  isRunning : Bool
  input : String
deriving DecidableEq, Repr

/-- `FlowService.getExecution`: look up an in-flight execution record in the
service's private `executions` map. -/
def getExecution (executions : List (String × FlowExecution)) (executionId : String) :
    Option FlowExecution :=
  aget executions executionId

/-- Combined UI picture: the component state plus the flow service's
`executions` map. -/
structure ExecutorUI where
  comp : FlowExecutorState
  serviceExecutions : List (String × FlowExecution)
deriving DecidableEq, Repr

/-- `stopExecution` of `FlowExecutor`: the handler body is exactly
`setIsRunning(false)` (its own comment reads: in a real implementation you
would send a stop signal to the flow service — none is sent). -/
def stopExecution (s : ExecutorUI) : ExecutorUI :=
  { s with comp := { s.comp with isRunning := false } }

/-! ## Blast valve pressure system (`blastValveSystem`) -/

/-- `ValveState` of the blast valve system (the `lastRelease` timestamp plays
no role in the pressure arithmetic and is omitted). -/
structure ValveState where
  isOpen : Bool
  pressure : ℚ
  maxPressure : ℚ
  releaseRate : ℚ
deriving DecidableEq, Repr

/-- The initial `valveState` field value. -/
def initialValveState : ValveState :=
  { isOpen := false, pressure := 0, maxPressure := 100, releaseRate := 10 }

/-- `openValve`: only flips `isOpen` when the valve is closed (the 30s
scheduled `closeValve` is a separate later step). -/
def openValve (s : ValveState) : ValveState :=
  if s.isOpen then s else { s with isOpen := true }

/-- `closeValve`: closes the valve and zeroes the pressure. -/
def closeValve (s : ValveState) : ValveState :=
  { s with isOpen := false, pressure := 0 }

/-- `increaseValvePressure`: add and clamp above at `maxPressure`. -/
def increaseValvePressure (s : ValveState) (amount : ℚ) : ValveState :=
  { s with pressure := min s.maxPressure (s.pressure + amount) }

/-- First statement of `updateValvePressure`: natural decay by 1 clamped
below at 0, applied only when the pressure is positive. -/
def decayPressure (s : ValveState) : ValveState :=
  if 0 < s.pressure then { s with pressure := max 0 (s.pressure - 1) } else s

/-- `updateValvePressure`: the decay statement followed by the check that
opens the valve when the pressure has reached `maxPressure`. -/
def updateValvePressure (s : ValveState) : ValveState :=
  if (decayPressure s).maxPressure ≤ (decayPressure s).pressure then
    openValve (decayPressure s)
  else decayPressure s

/-- `triggerValveRelease`: immediate relief by `releaseRate`, clamped below
at 0 (`deployCountermeasures` logs only). -/
def triggerValveRelease (s : ValveState) : ValveState :=
  { s with pressure := max 0 (s.pressure - s.releaseRate) }

/-- The states the valve system can reach: the initial state and every state
produced by one of the pressure-changing operations.  Every call site of
`increaseValvePressure` in the source passes a nonnegative amount (severity
weights 5..50, `requestsPerSecond / 10` with `requestsPerSecond > 50`, and a
connection count above 10), recorded here as the step's premise. -/
inductive ValveReachable : ValveState → Prop where
  | init : ValveReachable initialValveState
  | incr {s : ValveState} (amount : ℚ) (hs : ValveReachable s)
      (hamount : 0 ≤ amount) : ValveReachable (increaseValvePressure s amount)
  | update {s : ValveState} (hs : ValveReachable s) :
      ValveReachable (updateValvePressure s)
  | release {s : ValveState} (hs : ValveReachable s) :
      ValveReachable (triggerValveRelease s)
  | openV {s : ValveState} (hs : ValveReachable s) : ValveReachable (openValve s)
  | closeV {s : ValveState} (hs : ValveReachable s) : ValveReachable (closeValve s)

/-! ## Triple radial lock manager (`securityService`) -/

/-- `LOCK_ALIGNMENT_TOLERANCE` from `CLIENT_SECURITY_CONFIG`. -/
def lockAlignmentTolerance : ℚ := 5

/-- `MAX_LOCK_ATTEMPTS` from `CLIENT_SECURITY_CONFIG`. -/
def maxLockAttempts : Nat := 10

/-- `SecurityLock` (its `lastAttempt` date plays no role in the alignment
logic and is omitted). -/
structure SecurityLock where
  id : String
  type : String
  status : String
  angle : ℚ
  requiredAngle : ℚ
  attempts : Nat
deriving DecidableEq, Repr

/-- The object `attemptAlignment` resolves with (the mutated lock is also
returned, as in the source). -/
structure AlignOutcome where
  success : Bool
  lock : SecurityLock
  allLocksAligned : Bool
  message : String
deriving DecidableEq, Repr

/-- Replace the first lock of the given type (the source mutates the object
`find` located inside the array; later elements are untouched). -/
def setFirstLock : List SecurityLock → String → SecurityLock → List SecurityLock
  | [], _, _ => []
  | l :: rest, t, nl =>
    if l.type == t then nl :: rest else l :: setFirstLock rest t nl

/-- `TripleRadialLockManager.attemptAlignment`: find the lock by type (throw
if missing), throw once `attempts` has reached `MAX_LOCK_ATTEMPTS`, otherwise
record the angle, bump `attempts`, unlock when the angular difference is
within the tolerance on either side of the circle, and resolve with the
outcome record (the Firestore mirror write swallows its own errors and is
modelled as a no-op). -/
def attemptAlignment (locks : List SecurityLock) (lockType : String)
    (angle : ℚ) : Except String (AlignOutcome × List SecurityLock) :=
  match locks.find? (fun l => l.type == lockType) with
  | none => Except.error "Security lock not found"
  | some lock =>
    if maxLockAttempts ≤ lock.attempts then
      Except.error "Too many attempts. Please reset locks."
    else
      let angleDiff := |angle - lock.requiredAngle|
      let isAligned := angleDiff ≤ lockAlignmentTolerance ||
        (360 - lockAlignmentTolerance) ≤ angleDiff
      let lock2 := { lock with
        angle := angle,
        attempts := lock.attempts + 1,
        status := if isAligned then "unlocked" else lock.status }
      let locks2 := setFirstLock locks lockType lock2
      Except.ok
        ({ success := isAligned,
           lock := lock2,
           allLocksAligned := locks2.all (fun l => l.status == "unlocked"),
           message :=
             if isAligned then lockType ++ " lock aligned successfully"
             else "Lock alignment failed. " ++
               toString (maxLockAttempts - lock2.attempts) ++
               " attempts remaining." }, locks2)

/-! ## Database service (`getUserApiKeys`) -/

/-- A Firestore document snapshot: its id and its data record. -/
structure FireDoc where
  id : String
  data : RecordV
deriving DecidableEq, Repr

/-- `Timestamp.toDate()`: a timestamp becomes a date carrying the same
instant (calling it on a non-timestamp would throw in JS; the theorems assume
a well-formed document whose `createdAt` is a `Timestamp`). -/
def toDateVal : Val → Val
  | Val.timestamp t => Val.date t
  | v => v

/-- The rest-spread `const { keyHash, ...apiKeyData } = data`. -/
def dropKeyHash (data : RecordV) : RecordV :=
  data.filter (fun p => !(p.1 == "keyHash"))

/-- JS object-literal build-up: later properties override earlier ones. -/
def buildObj (init : RecordV) (fields : RecordV) : RecordV :=
  fields.foldl (fun acc p => aset acc p.1 p.2) init

/-- The mapping applied to each snapshot by `getUserApiKeys`:
`{ id: doc.id, ...apiKeyData, createdAt: data.createdAt.toDate() }` with
`apiKeyData` the document data minus `keyHash`. -/
def mapApiKeyDoc (doc : FireDoc) : RecordV :=
  aset (buildObj [("id", Val.str doc.id)] (dropKeyHash doc.data)) "createdAt"
    (toDateVal ((aget doc.data "createdAt").getD Val.undef))

/-- `DatabaseService.getUserApiKeys`, given the snapshots the Firestore query
returned for the authenticated user (the security gate and the query itself
are outside the embedding): each document is mapped through
`mapApiKeyDoc`. -/
def getUserApiKeys (docs : List FireDoc) : List RecordV :=
  docs.map mapApiKeyDoc


/-! ## Concrete instances used by the theorems -/

/-! ## Concrete flow instances -/

/-- Oracle whose every node execution succeeds with output `"out"` and cost
1. -/
def okNodeExec : NodeExec := fun _ _ _ _ _ =>
  { success := true, output := Val.str "out", cost := some 1 }

/-- Oracle whose every node execution fails with error `boom`. -/
def failNodeExec : NodeExec := fun _ _ _ _ _ =>
  { success := false, error := some "boom" }

def startNode1 : Node := { id := "s1", type := some "start" }

def agentNode1 : Node := { id := "a1", type := some "agent" }

def agentNode2 : Node := { id := "b1", type := some "agent" }

/-- start -> a1 -> b1. -/
def lineNodes : List Node := [startNode1, agentNode1, agentNode2]

def lineEdges : List Edge :=
  [{ source := "s1", target := "a1" }, { source := "a1", target := "b1" }]

/-- start -> a1 -> b1 -> a1: a cycle of successfully executing agent nodes
reachable from the start node. -/
def cycleEdges : List Edge :=
  lineEdges ++ [{ source := "b1", target := "a1" }]

/-- start -> a1. -/
def pairNodes : List Node := [startNode1, agentNode1]

def pairEdges : List Edge := [{ source := "s1", target := "a1" }]

/-- Node `a1` configured with the `retry` error-handling policy. -/
def retryConfig : List (String × NodeConfig) :=
  [("a1", { errorHandling := some "retry" })]

/-- A single start node with a self-loop edge. -/
def startLoopNode : Node := { id := "start", type := some "start" }

def startLoopNodes : List Node := [startLoopNode]

def startLoopEdges : List Edge := [{ source := "start", target := "start" }]

/-- An integration-classified node, for the integration arm of the claims. -/
def integNode1 : Node := { id := "i1", type := some "integration" }

def integPairEdges : List Edge := [{ source := "s1", target := "i1" }]

/-- Node `i1` configured with the `retry` error-handling policy. -/
def integRetryConfig : List (String × NodeConfig) :=
  [("i1", { errorHandling := some "retry" })]

/-- A provider call that always throws a Slack error. -/
def slackFailCall : IntegrationCall := fun _ _ _ _ =>
  Except.error "Slack API error: channel_not_found"

/-- Parameter processing that passes the parameters through. -/
def keepParams : RecordV → RecordV → RecordV := fun params _ => params

def sampleIntegrationContext : IntegrationExecutionContext :=
  { action := "send-message", parameters := [], apiKey := "tok", input := [] }

/-- A provider call that always throws an OpenAI error. -/
def openaiFailCall : LLMCall := fun _ _ _ _ _ =>
  Except.error "OpenAI API error: 500"

def idPromptProc : String → String := fun s => s

def zeroCost : String → String → ℚ → ℚ := fun _ _ _ => 0

def sampleAgent : AgentE :=
  { llm := { provider := "openai", model := "gpt-4o", apiKey := "sk-test" },
    systemPrompt := "You are helpful.", userPrompt := "hi" }

/-- On the flow start -> a1 with a1 failing forever under `retry`, the
`executeFlow` promise settles at no finite budget: the universally quantified
resolution claim fails at this input. -/
def retryFlowNeverResolves : Prop :=
  ∀ fuel : Nat,
    executeFlowF failNodeExec fuel pairNodes pairEdges [] retryConfig 0 = none

/-- A concrete well-formed API-key document. -/
def sampleApiKeyDoc : FireDoc :=
  { id := "doc1",
    data := [("userId", Val.str "u1"), ("name", Val.str "prod key"),
             ("keyHash", Val.str "deadbeef"), ("isActive", Val.boolV true),
             ("createdAt", Val.timestamp 5)] }

/-- A concrete UI state with one in-flight execution. -/
def sampleUI : ExecutorUI :=
  { comp := { execution := none, isRunning := true, input := "{}" },
    serviceExecutions :=
      [("flow_7", { id := "flow_7", status := FlowStatus.running,
                    startTime := 7 })] }

def sampleLocks : List SecurityLock :=
  [{ id := "u1_auth", type := "authentication", status := "locked",
     angle := 0, requiredAngle := 100, attempts := 0 },
   { id := "u1_authz", type := "authorization", status := "locked",
     angle := 0, requiredAngle := 200, attempts := 0 },
   { id := "u1_encrypt", type := "encryption", status := "locked",
     angle := 0, requiredAngle := 300, attempts := 0 }]

def blockedLocks : List SecurityLock :=
  [{ id := "u1_auth", type := "authentication", status := "locked",
     angle := 40, requiredAngle := 100, attempts := 10 }]

/-! ## Record lemmas -/

theorem aget_cons {α : Type} (p : String × α) (rest : List (String × α))
    (k : String) :
    aget (p :: rest) k = if p.1 = k then some p.2 else aget rest k := by
  by_cases h : p.1 = k <;> simp [aget, h]

theorem aget_aset_self {α : Type} (m : List (String × α)) (k : String) (v : α) :
    aget (aset m k v) k = some v := by
  induction m with
  | nil => simp [aset, aget]
  | cons p rest ih =>
    by_cases h : p.1 = k
    · simp [aset, aget, h]
    · rw [aset, if_neg (by simpa using h), aget_cons, if_neg h]
      exact ih

theorem aget_aset_ne {α : Type} (m : List (String × α)) {k k' : String} (v : α)
    (h : k' ≠ k) : aget (aset m k v) k' = aget m k' := by
  induction m with
  | nil => simp [aset, aget, Ne.symm h]
  | cons p rest ih =>
    by_cases hp : p.1 = k
    · rw [aset, if_pos (by simpa using hp), aget_cons, aget_cons,
        if_neg (fun hh => h hh.symm), if_neg (fun hh => h (hp ▸ hh).symm)]
    · rw [aset, if_neg (by simpa using hp), aget_cons, aget_cons]
      by_cases hk : p.1 = k'
      · rw [if_pos hk, if_pos hk]
      · rw [if_neg hk, if_neg hk]
        exact ih

theorem aget_none_not_mem {α : Type} :
    ∀ (m : List (String × α)) (k : String), aget m k = none →
      ∀ p ∈ m, p.1 ≠ k := by
  intro m
  induction m with
  | nil => intro k _ p hp; simp at hp
  | cons q rest ih =>
    intro k hnone p hp
    rw [aget_cons] at hnone
    by_cases hq : q.1 = k
    · rw [if_pos hq] at hnone; exact absurd hnone (by simp)
    · rw [if_neg hq] at hnone
      rcases List.mem_cons.mp hp with h | h
      · exact h ▸ hq
      · exact ih k hnone p h

theorem aget_buildObj_not_mem (init fields : RecordV) (k : String)
    (h : ∀ p ∈ fields, p.1 ≠ k) :
    aget (buildObj init fields) k = aget init k := by
  induction fields generalizing init with
  | nil => rfl
  | cons p rest ih =>
    have hp : p.1 ≠ k := h p (List.mem_cons_self p rest)
    have hrest : ∀ q ∈ rest, q.1 ≠ k := fun q hq => h q (List.mem_cons_of_mem p hq)
    calc aget (buildObj init (p :: rest)) k
        = aget (buildObj (aset init p.1 p.2) rest) k := rfl
      _ = aget (aset init p.1 p.2) k := ih _ hrest
      _ = aget init k := aget_aset_ne init p.2 (Ne.symm hp)

theorem aget_buildObj_mem :
    ∀ (fields init : RecordV) (k : String) (v : Val),
      (fields.map Prod.fst).Nodup → aget fields k = some v →
      aget (buildObj init fields) k = some v := by
  intro fields
  induction fields with
  | nil => intro init k v _ hv; simp [aget] at hv
  | cons p rest ih =>
    intro init k v hnd hv
    rw [aget_cons] at hv
    by_cases hp : p.1 = k
    · rw [if_pos hp] at hv
      have hnot : ∀ q ∈ rest, q.1 ≠ k := by
        intro q hq hqk
        exact (List.nodup_cons.mp hnd).1
          (hp ▸ hqk ▸ List.mem_map_of_mem Prod.fst hq)
      calc aget (buildObj init (p :: rest)) k
          = aget (buildObj (aset init p.1 p.2) rest) k := rfl
        _ = aget (aset init p.1 p.2) k := aget_buildObj_not_mem _ _ _ hnot
        _ = some p.2 := by rw [hp]; exact aget_aset_self _ _ _
        _ = some v := hv
    · rw [if_neg hp] at hv
      exact ih (aset init p.1 p.2) k v (List.nodup_cons.mp hnd).2 hv

theorem dropKeyHash_nil : dropKeyHash [] = [] := rfl

theorem dropKeyHash_cons (p : String × Val) (rest : RecordV) :
    dropKeyHash (p :: rest) =
      if p.1 = "keyHash" then dropKeyHash rest else p :: dropKeyHash rest := by
  by_cases h : p.1 = "keyHash" <;> simp [dropKeyHash, h]

theorem aget_dropKeyHash :
    ∀ (data : RecordV) (k : String), k ≠ "keyHash" →
      aget (dropKeyHash data) k = aget data k := by
  intro data
  induction data with
  | nil => intro k _; rfl
  | cons p rest ih =>
    intro k h
    rw [dropKeyHash_cons, aget_cons]
    by_cases hp : p.1 = "keyHash"
    · have hpk : p.1 ≠ k := fun hh => h ((hh ▸ hp : k = "keyHash"))
      rw [if_pos hp, if_neg hpk]
      exact ih k h
    · rw [if_neg hp, aget_cons]
      by_cases hk : p.1 = k
      · rw [if_pos hk, if_pos hk]
      · rw [if_neg hk, if_neg hk]
        exact ih k h

theorem mem_dropKeyHash_fst :
    ∀ (data : RecordV) (x : String), x ∈ (dropKeyHash data).map Prod.fst →
      x ∈ data.map Prod.fst := by
  intro data
  induction data with
  | nil => intro x hx; simp [dropKeyHash] at hx
  | cons p rest ih =>
    intro x hx
    rw [dropKeyHash_cons] at hx
    by_cases hp : p.1 = "keyHash"
    · rw [if_pos hp] at hx
      exact List.mem_cons_of_mem p.1 (ih x hx)
    · rw [if_neg hp, List.map_cons] at hx
      rcases List.mem_cons.mp hx with h | h
      · exact h ▸ List.mem_cons_self _ _
      · exact List.mem_cons_of_mem p.1 (ih x h)

theorem nodup_dropKeyHash :
    ∀ data : RecordV, (data.map Prod.fst).Nodup →
      ((dropKeyHash data).map Prod.fst).Nodup := by
  intro data
  induction data with
  | nil => intro _; simp [dropKeyHash]
  | cons p rest ih =>
    intro hnd
    rw [dropKeyHash_cons]
    by_cases hp : p.1 = "keyHash"
    · rw [if_pos hp]
      exact ih (List.nodup_cons.mp hnd).2
    · rw [if_neg hp, List.map_cons, List.nodup_cons]
      exact ⟨fun hmem => (List.nodup_cons.mp hnd).1 (mem_dropKeyHash_fst rest p.1 hmem),
        ih (List.nodup_cons.mp hnd).2⟩

/-! ## C10: getUserApiKeys strips the key hash -/

/-- C10: every record `getUserApiKeys` returns for a well-formed API-key
document omits `keyHash`, carries every other data field unchanged (apart
from `createdAt`, whose `Timestamp` is decoded to the `Date` of the same
instant, and `id`, which is populated from the document id), so no caller of
the public interface can observe a key hash. -/
theorem getUserApiKeys_strips_keyHash (docs : List FireDoc) (doc : FireDoc)
    (t : Nat) (hmem : doc ∈ docs) (hnd : (doc.data.map Prod.fst).Nodup)
    (hca : aget doc.data "createdAt" = some (Val.timestamp t)) :
    mapApiKeyDoc doc ∈ getUserApiKeys docs ∧
    aget (mapApiKeyDoc doc) "keyHash" = none ∧
    (∀ k, k ≠ "keyHash" → k ≠ "id" → k ≠ "createdAt" →
      aget (mapApiKeyDoc doc) k = aget doc.data k) ∧
    aget (mapApiKeyDoc doc) "createdAt" = some (Val.date t) := by
  refine ⟨List.mem_map_of_mem mapApiKeyDoc hmem, ?_, ?_, ?_⟩
  · rw [mapApiKeyDoc, aget_aset_ne _ _ (by decide)]
    rw [aget_buildObj_not_mem]
    · simp [aget]
    · intro p hp
      have := List.of_mem_filter hp
      simpa using this
  · intro k hkh hid hca2
    rw [mapApiKeyDoc, aget_aset_ne _ _ hca2]
    by_cases hk : aget doc.data k = none
    · have hside : ∀ p ∈ dropKeyHash doc.data, p.1 ≠ k := fun p hp =>
        aget_none_not_mem doc.data k hk p (List.mem_of_mem_filter hp)
      rw [aget_buildObj_not_mem _ _ _ hside, hk]
      simp [aget, Ne.symm hid]
    · obtain ⟨v, hv⟩ := Option.ne_none_iff_exists'.mp hk
      rw [hv]
      have hv2 : aget (dropKeyHash doc.data) k = some v := by
        rw [aget_dropKeyHash _ _ hkh, hv]
      exact aget_buildObj_mem _ _ _ _ (nodup_dropKeyHash _ hnd) hv2
  · rw [mapApiKeyDoc, aget_aset_self, hca]
    rfl

theorem getUserApiKeys_strips_keyHash_witness :
    aget (mapApiKeyDoc sampleApiKeyDoc) "keyHash" = none ∧
    aget (mapApiKeyDoc sampleApiKeyDoc) "userId" =
      aget sampleApiKeyDoc.data "userId" ∧
    aget (mapApiKeyDoc sampleApiKeyDoc) "createdAt" = some (Val.date 5) := by
  have h := getUserApiKeys_strips_keyHash [sampleApiKeyDoc] sampleApiKeyDoc 5
    (List.mem_singleton.mpr rfl) (by decide) (by decide)
  exact ⟨h.2.1, h.2.2.1 "userId" (by decide) (by decide) (by decide), h.2.2.2⟩

/-! ## C7: the Stop control -/

/-- C7: `stopExecution` only clears the component-local `isRunning` flag: the
flow service's `executions` map, the polled execution snapshot and the input
text are untouched, so any in-flight `FlowExecution` record read back through
`getExecution` is unchanged by pressing Stop (and the recursive walk, which
receives no channel from the component, proceeds as if the button had not
been pressed). -/
theorem stopExecution_noop (s : ExecutorUI) :
    (stopExecution s).serviceExecutions = s.serviceExecutions ∧
    (stopExecution s).comp.execution = s.comp.execution ∧
    (stopExecution s).comp.input = s.comp.input ∧
    (stopExecution s).comp.isRunning = false ∧
    (∀ i, getExecution (stopExecution s).serviceExecutions i =
      getExecution s.serviceExecutions i) :=
  ⟨rfl, rfl, rfl, rfl, fun _ => rfl⟩

theorem stopExecution_noop_witness :
    (stopExecution sampleUI).serviceExecutions = sampleUI.serviceExecutions ∧
    (stopExecution sampleUI).comp.isRunning = false ∧
    getExecution (stopExecution sampleUI).serviceExecutions "flow_7" =
      getExecution sampleUI.serviceExecutions "flow_7" := by
  obtain ⟨h1, _, _, h4, h5⟩ := stopExecution_noop sampleUI
  exact ⟨h1, h4, h5 "flow_7"⟩

/-! ## C8: the valve pressure invariant -/

/-- C8: every reachable state of the blast valve system keeps the pressure
inside the closed interval [0, maxPressure]; the maximum pressure stays at
its initial value 100 (and the release rate at 10) since no operation writes
those fields. -/
theorem valve_pressure_invariant (s : ValveState) (hs : ValveReachable s) :
    0 ≤ s.pressure ∧ s.pressure ≤ s.maxPressure ∧ s.maxPressure = 100 ∧
      s.releaseRate = 10 := by
  induction hs with
  | init => norm_num [initialValveState]
  | incr amount hs hamount ih =>
    obtain ⟨h0, h1, h2, h3⟩ := ih
    refine ⟨?_, ?_, h2, h3⟩
    · exact le_min (h0.trans h1) (by linarith)
    · exact min_le_left _ _
  | @update s2 hs ih =>
    obtain ⟨h0, h1, h2, h3⟩ := ih
    have hd : 0 ≤ (decayPressure s2).pressure ∧
        (decayPressure s2).pressure ≤ (decayPressure s2).maxPressure ∧
        (decayPressure s2).maxPressure = 100 ∧
        (decayPressure s2).releaseRate = 10 := by
      unfold decayPressure
      split_ifs
      · exact ⟨le_max_left _ _,
          by rw [max_le_iff]; constructor <;> linarith, h2, h3⟩
      · exact ⟨h0, h1, h2, h3⟩
    obtain ⟨d0, d1, d2, d3⟩ := hd
    unfold updateValvePressure openValve
    split_ifs <;> exact ⟨d0, d1, d2, d3⟩
  | release hs ih =>
    obtain ⟨h0, h1, h2, h3⟩ := ih
    refine ⟨le_max_left _ _, ?_, h2, h3⟩
    simp only [triggerValveRelease, max_le_iff]
    constructor <;> linarith
  | openV hs ih =>
    obtain ⟨h0, h1, h2, h3⟩ := ih
    unfold openValve
    split_ifs <;> exact ⟨h0, h1, h2, h3⟩
  | closeV hs ih =>
    obtain ⟨h0, h1, h2, h3⟩ := ih
    exact ⟨le_refl _, by simp only [closeValve]; linarith, h2, h3⟩

theorem valve_pressure_invariant_witness :
    0 ≤ (increaseValvePressure initialValveState 30).pressure ∧
    (increaseValvePressure initialValveState 30).pressure ≤
      (increaseValvePressure initialValveState 30).maxPressure ∧
    (increaseValvePressure initialValveState 30).maxPressure = 100 ∧
    (increaseValvePressure initialValveState 30).releaseRate = 10 :=
  valve_pressure_invariant _
    (ValveReachable.incr 30 ValveReachable.init (by norm_num))

/-! ## C9: the triple radial lock -/

/-- C9: while a lock's recorded attempts are below `MAX_LOCK_ATTEMPTS` (10),
`attemptAlignment` bumps its attempts by exactly one, succeeds exactly when
the angular difference to the required angle is at most 5 degrees or at least
355 degrees, and marks the lock `unlocked` exactly on success; once the
attempts have reached 10, every further call throws
`Too many attempts. Please reset locks.` (and, being pure up to the mirrored
Firestore write, changes no lock). -/
theorem attemptAlignment_spec (locks : List SecurityLock) (lockType : String)
    (angle : ℚ) (lock : SecurityLock)
    (hfind : locks.find? (fun l => l.type == lockType) = some lock) :
    (lock.attempts < maxLockAttempts →
      ((attemptAlignment locks lockType angle).toOption.map
          (fun p => p.1.lock.attempts) = some (lock.attempts + 1) ∧
        (attemptAlignment locks lockType angle).toOption.map
          (fun p => p.1.success) =
          some (decide (|angle - lock.requiredAngle| ≤ 5 ∨
            355 ≤ |angle - lock.requiredAngle|)) ∧
        (attemptAlignment locks lockType angle).toOption.map
          (fun p => p.1.lock.status) =
          some (if |angle - lock.requiredAngle| ≤ 5 ∨
              355 ≤ |angle - lock.requiredAngle| then "unlocked"
            else lock.status))) ∧
    (maxLockAttempts ≤ lock.attempts →
      attemptAlignment locks lockType angle =
        Except.error "Too many attempts. Please reset locks.") := by
  constructor
  · intro hlt
    simp only [attemptAlignment, hfind, if_neg (not_le.mpr hlt)]
    refine ⟨rfl, ?_, ?_⟩
    · simp only [Except.toOption, Option.map_some']
      congr 1
      rw [Bool.eq_iff_iff]
      simp only [lockAlignmentTolerance, Bool.or_eq_true, decide_eq_true_eq]
      norm_num
    · simp only [Except.toOption, Option.map_some']
      congr 1
      simp only [lockAlignmentTolerance, Bool.or_eq_true, decide_eq_true_eq]
      norm_num
  · intro hge
    simp only [attemptAlignment, hfind, if_pos hge]

/-! ## Flow-engine helper lemmas -/

/-- Shared helper: a non-start agent node whose execution fails on every
invocation under the `retry` policy exhausts every fuel budget — the catch
block re-invokes the same node unconditionally, with no backoff and no
limit. -/
theorem retryFail_diverges (exec : NodeExec)
    (graph : List (String × List String)) (nodes : List Node) (input : RecordV)
    (nodeConfigs : List (String × NodeConfig)) (nodeId : String) (node : Node)
    (hfind : nodes.find? (fun n => n.id == nodeId) = some node)
    (hstart : (node.type == some "start" || strHas nodeId "start") = false)
    (hkind : (node.type == some "agent" || strHas nodeId "agent") = true ∨
      (node.type == some "integration" || strHas nodeId "integration") = true)
    (hretry : orElseStr ((aget nodeConfigs nodeId).getD {}).errorHandling "stop"
      = "retry")
    (hfail : ∀ results : RecordV,
      (exec nodeId node ((aget nodeConfigs nodeId).getD {}) input results).success
        = false) :
    ∀ (fuel : Nat) (e : FlowExecution),
      executeNodeF exec fuel nodeId graph nodes input nodeConfigs e = none := by
  intro fuel
  induction fuel with
  | zero => intro e; rfl
  | succ n ih =>
    intro e
    cases hA : (node.type == some "agent" || strHas nodeId "agent") with
    | true =>
      simp only [executeNodeF, hfind, hstart, hA, hfail, hretry,
        Bool.false_eq_true, reduceIte, String.reduceBEq, if_true, if_false]
      exact ih _
    | false =>
      have hI : (node.type == some "integration" || strHas nodeId "integration")
          = true := by
        rcases hkind with h | h
        · rw [hA] at h; simp at h
        · exact h
      simp only [executeNodeF, hfind, hstart, hA, hI, hfail, hretry,
        Bool.false_eq_true, reduceIte, String.reduceBEq, if_true, if_false]
      exact ih _

/-- Shared helper: the start-node self-loop walk exhausts every budget. -/
theorem startLoop_diverges (exec : NodeExec) (input : RecordV)
    (nodeConfigs : List (String × NodeConfig)) :
    ∀ (fuel : Nat) (e : FlowExecution),
      executeNodeF exec fuel "start" [("start", ["start"])] startLoopNodes
        input nodeConfigs e = none := by
  intro fuel
  induction fuel with
  | zero => intro e; rfl
  | succ n ih =>
    intro e
    show runSeq
        (fun nn ee => executeNodeF exec n nn [("start", ["start"])]
          startLoopNodes input nodeConfigs ee)
        ["start"] { e with currentNode := some "start" } = none
    simp only [runSeq, ih]

/-- Shared helper: from the start node `s1` of the retry flow the walk
diverges at every budget, because its successor `a1` always fails under
`retry`. -/
theorem retryFlow_node_diverges :
    ∀ (fuel : Nat) (e : FlowExecution),
      executeNodeF failNodeExec fuel "s1" (buildExecutionGraph pairNodes pairEdges)
        pairNodes [] retryConfig e = none := by
  intro fuel
  cases fuel with
  | zero => intro e; rfl
  | succ n =>
    intro e
    show runSeq
        (fun nn ee => executeNodeF failNodeExec n nn
          (buildExecutionGraph pairNodes pairEdges) pairNodes [] retryConfig ee)
        ["a1"] { e with currentNode := some "s1" } = none
    simp only [runSeq,
      retryFail_diverges failNodeExec (buildExecutionGraph pairNodes pairEdges)
        pairNodes [] retryConfig "a1" agentNode1 rfl rfl (Or.inl rfl) rfl
        (fun _ => rfl) n]

/-! ## C1: the successor call of a completed node -/

/-- C1 (code bug): on the flow start -> a1 -> b1 where a1 succeeds, the engine
stores a1's output, but the recursive successor call (which in the source
passes five arguments to the six-parameter `executeNode`) throws the
undefined-execution TypeError instead of executing b1 with the merged input:
the whole flow ends in error, b1 is never visited, and the TypeError message
is recorded under a1 and `flow`. -/
theorem successor_call_crashes :
    executeFlowF okNodeExec 10 lineNodes lineEdges [] [] 0 =
      some ("flow_0",
        { id := "flow_0", status := FlowStatus.error, currentNode := some "a1",
          results := [("a1", Val.str "out")],
          errors := [("a1", undefinedExecutionError),
                     ("flow", undefinedExecutionError)],
          startTime := 0, endTime := some 0, totalCost := 1 }) ∧
    (executeFlowF okNodeExec 10 lineNodes lineEdges [] [] 0).map
      (fun p => aget p.2.results "b1") = some none := by
  exact ⟨by with_unfolding_all decide, by with_unfolding_all decide⟩

/-! ## C2: unbounded retry -/

/-- C2: every non-start node — agent-classified or integration-classified —
that fails on every invocation under the `retry` policy makes `executeNode`
re-invoke itself forever: no fuel budget suffices. -/
theorem retry_nonterminating (exec : NodeExec)
    (graph : List (String × List String)) (nodes : List Node) (input : RecordV)
    (nodeConfigs : List (String × NodeConfig)) (nodeId : String) (node : Node)
    (hfind : nodes.find? (fun n => n.id == nodeId) = some node)
    (hstart : (node.type == some "start" || strHas nodeId "start") = false)
    (hkind : (node.type == some "agent" || strHas nodeId "agent") = true ∨
      (node.type == some "integration" || strHas nodeId "integration") = true)
    (hretry : orElseStr ((aget nodeConfigs nodeId).getD {}).errorHandling "stop"
      = "retry")
    (hfail : ∀ results : RecordV,
      (exec nodeId node ((aget nodeConfigs nodeId).getD {}) input results).success
        = false) :
    ∀ (fuel : Nat) (e : FlowExecution),
      executeNodeF exec fuel nodeId graph nodes input nodeConfigs e = none :=
  retryFail_diverges exec graph nodes input nodeConfigs nodeId node hfind
    hstart hkind hretry hfail

theorem retry_nonterminating_witness :
    executeNodeF failNodeExec 5 "a1" (buildExecutionGraph pairNodes pairEdges)
      pairNodes [] retryConfig
      { id := "flow_0", status := FlowStatus.running, startTime := 0 } = none ∧
    executeNodeF failNodeExec 5 "i1"
      (buildExecutionGraph [startNode1, integNode1] integPairEdges)
      [startNode1, integNode1] [] integRetryConfig
      { id := "flow_0", status := FlowStatus.running, startTime := 0 } = none :=
  ⟨retry_nonterminating failNodeExec (buildExecutionGraph pairNodes pairEdges)
    pairNodes [] retryConfig "a1" agentNode1 rfl rfl (Or.inl rfl) rfl
    (fun _ => rfl) 5 _,
   retry_nonterminating failNodeExec
    (buildExecutionGraph [startNode1, integNode1] integPairEdges)
    [startNode1, integNode1] [] integRetryConfig "i1" integNode1 rfl rfl
    (Or.inr rfl) rfl (fun _ => rfl) 5 _⟩

/-! ## C3: cycles -/

/-- C3 (counterexample): a cycle of successfully executing agent nodes
reachable from the start node does NOT make the recursion run forever — the
run returns at budget 10, in error, because the successor call crashes before
it can follow the cycle. -/
theorem cycle_terminates_counterexample :
    executeFlowF okNodeExec 10 lineNodes cycleEdges [] [] 0 =
      some ("flow_0",
        { id := "flow_0", status := FlowStatus.error, currentNode := some "a1",
          results := [("a1", Val.str "out")],
          errors := [("a1", undefinedExecutionError),
                     ("flow", undefinedExecutionError)],
          startTime := 0, endTime := some 0, totalCost := 1 }) := by
  with_unfolding_all decide

/-- C3 (amended): `executeNode` keeps no visited set; a reachable cycle of
start-classified nodes (here a start self-loop) recurses forever, while a
reachable cycle of successfully executing non-start nodes terminates with an
error because the five-argument successor call throws before following the
cycle. -/
theorem no_cycle_detection :
    (∀ (exec : NodeExec) (input : RecordV)
        (nodeConfigs : List (String × NodeConfig)) (now fuel : Nat),
      executeFlowF exec fuel startLoopNodes startLoopEdges input nodeConfigs now
        = none) ∧
    executeFlowF okNodeExec 10 lineNodes cycleEdges [] [] 0 =
      some ("flow_0",
        { id := "flow_0", status := FlowStatus.error, currentNode := some "a1",
          results := [("a1", Val.str "out")],
          errors := [("a1", undefinedExecutionError),
                     ("flow", undefinedExecutionError)],
          startTime := 0, endTime := some 0, totalCost := 1 }) := by
  constructor
  · intro exec input nodeConfigs now fuel
    have hfind : List.find?
        (fun n => n.type == some "start" || strHas n.id "start") startLoopNodes
        = some startLoopNode := rfl
    have hgraph : buildExecutionGraph startLoopNodes startLoopEdges =
        [("start", ["start"])] := rfl
    have hid : startLoopNode.id = "start" := rfl
    simp only [executeFlowF, hfind, hgraph, hid,
      startLoop_diverges exec input nodeConfigs fuel]
  · with_unfolding_all decide

/-! ## C4: the stop policy -/

/-- C4: every failing non-start node — agent-classified or
integration-classified — whose error handling is `stop` (or omitted, since
the config defaults to `stop`) records the error message under its node id,
leaves the results untouched, and rethrows without visiting any successor;
and whenever the walk from the start node of any flow throws, `executeFlow`
stores the thrown message under `flow`, sets the status to `error` and sets
an end time. -/
theorem stop_policy_rethrows (exec : NodeExec)
    (graph : List (String × List String)) (nodes : List Node) (input : RecordV)
    (nodeConfigs : List (String × NodeConfig)) (nodeId : String) (node : Node)
    (e : FlowExecution) (fuel : Nat)
    (hfind : nodes.find? (fun n => n.id == nodeId) = some node)
    (hstart : (node.type == some "start" || strHas nodeId "start") = false)
    (hkind : (node.type == some "agent" || strHas nodeId "agent") = true ∨
      (node.type == some "integration" || strHas nodeId "integration") = true)
    (hfail : (exec nodeId node ((aget nodeConfigs nodeId).getD {}) input
      e.results).success = false)
    (hstop : orElseStr ((aget nodeConfigs nodeId).getD {}).errorHandling "stop"
      = "stop") :
    executeNodeF exec (fuel + 1) nodeId graph nodes input nodeConfigs e =
      some (RunResult.thrown
        (nodeFailMessage nodeId node
          (exec nodeId node ((aget nodeConfigs nodeId).getD {}) input e.results))
        { e with currentNode := some nodeId,
                 errors := aset e.errors nodeId
                   (nodeFailMessage nodeId node
                     (exec nodeId node ((aget nodeConfigs nodeId).getD {})
                       input e.results)) }) ∧
    (∀ (exec2 : NodeExec) (fuel2 : Nat) (nodes2 : List Node)
        (edges2 : List Edge) (input2 : RecordV)
        (nodeConfigs2 : List (String × NodeConfig)) (now : Nat) (sn : Node)
        (m : String) (e2 : FlowExecution),
      nodes2.find? (fun n => n.type == some "start" || strHas n.id "start")
        = some sn →
      executeNodeF exec2 fuel2 sn.id (buildExecutionGraph nodes2 edges2) nodes2
        input2 nodeConfigs2
        { id := "flow_" ++ toString now, status := FlowStatus.running,
          startTime := now } = some (RunResult.thrown m e2) →
      executeFlowF exec2 fuel2 nodes2 edges2 input2 nodeConfigs2 now =
        some ("flow_" ++ toString now,
          { e2 with status := FlowStatus.error,
                    errors := aset e2.errors "flow" m,
                    endTime := some now })) := by
  constructor
  · cases hA : (node.type == some "agent" || strHas nodeId "agent") with
    | true =>
      simp only [executeNodeF, hfind, hstart, hA, hfail, hstop, nodeFailMessage,
        Bool.false_eq_true, reduceIte, String.reduceBEq, if_true, if_false]
    | false =>
      have hI : (node.type == some "integration" || strHas nodeId "integration")
          = true := by
        rcases hkind with h | h
        · rw [hA] at h; simp at h
        · exact h
      simp only [executeNodeF, hfind, hstart, hA, hI, hfail, hstop,
        nodeFailMessage, Bool.false_eq_true, reduceIte, String.reduceBEq,
        if_true, if_false]
  · intro exec2 fuel2 nodes2 edges2 input2 nodeConfigs2 now sn m e2 hfind2 hE
    simp only [executeFlowF, hfind2, hE]

theorem stop_policy_rethrows_witness :
    executeNodeF failNodeExec 1 "i1"
        (buildExecutionGraph [startNode1, integNode1] integPairEdges)
        [startNode1, integNode1] [] []
        { id := "flow_0", status := FlowStatus.running, startTime := 0 } =
      some (RunResult.thrown "boom"
        { id := "flow_0", status := FlowStatus.running,
          currentNode := some "i1", errors := [("i1", "boom")],
          startTime := 0 }) ∧
    executeFlowF failNodeExec 5 pairNodes pairEdges [] [] 0 =
      some ("flow_0",
        { id := "flow_0", status := FlowStatus.error, currentNode := some "a1",
          errors := [("a1", "boom"), ("flow", "boom")],
          startTime := 0, endTime := some 0 }) := by
  have h := stop_policy_rethrows failNodeExec
    (buildExecutionGraph [startNode1, integNode1] integPairEdges)
    [startNode1, integNode1] [] [] "i1" integNode1
    { id := "flow_0", status := FlowStatus.running, startTime := 0 } 0
    rfl rfl (Or.inr rfl) rfl rfl
  refine ⟨h.1, h.2 failNodeExec 5 pairNodes pairEdges [] [] 0 startNode1 "boom"
    { id := "flow_0", status := FlowStatus.running, currentNode := some "a1",
      errors := [("a1", "boom")], startTime := 0 } rfl
    (by with_unfolding_all decide)⟩

/-! ## C5: service boundaries absorb errors -/

/-- Helper: the catch block shape shared by both services resolves for every
outcome of the protected body. -/
theorem exceptOk_catchResolve {α : Type} (fallback : String → α)
    (a : Except String α) :
    exceptOk (catchResolve fallback a) = true := by
  cases a <;> rfl

/-- C5 (counterexample): when the provider call throws, neither
`executeIntegration` nor `executeAgent` re-throws to its caller — both catch
the error and resolve with a `{ success: false, error: message }` result. -/
theorem service_boundary_counterexample :
    executeIntegrationM [] slackFailCall keepParams "slack"
        sampleIntegrationContext =
      Except.ok { success := false, output := Val.undef,
                  error := some "Slack API error: channel_not_found" } ∧
    exceptOk (executeIntegrationM [] slackFailCall keepParams "slack"
      sampleIntegrationContext) = true ∧
    executeAgentM [] openaiFailCall idPromptProc zeroCost sampleAgent 0 =
      Except.ok { success := false, output := Val.undef,
                  error := some "OpenAI API error: 500", executionTime := 0 } ∧
    exceptOk (executeAgentM [] openaiFailCall idPromptProc zeroCost sampleAgent 0)
      = true := by
  exact ⟨rfl, rfl, rfl, rfl⟩

/-- C5 (amended): every error raised inside the service body — including the
generic provider-specific `Error`s thrown by the per-provider executors — is
caught at the boundary and converted into a resolved failure result carrying
the message; the two functions never reject. -/
theorem service_boundary_absorbs (serviceKeys agentKeys : List (String × String))
    (callP : IntegrationCall) (procP : RecordV → RecordV → RecordV)
    (provider : String) (context : IntegrationExecutionContext) (m : String)
    (callLLM : LLMCall) (procPrompt : String → String)
    (calcCost : String → String → ℚ → ℚ) (agent : AgentE) (elapsed : ℚ)
    (m2 : String)
    (hsupp : isIntegrationProvider provider = true)
    (hkey : (orElseStr (aget serviceKeys provider) context.apiKey == "") = false)
    (hcall : callP provider context.action
      (procP context.parameters context.input)
      (orElseStr (aget serviceKeys provider) context.apiKey) = Except.error m)
    (hasupp : isLLMProvider agent.llm.provider = true)
    (hakey : (orElseStr (aget agentKeys agent.llm.provider) agent.llm.apiKey
      == "") = false)
    (hacall : callLLM agent.llm.provider agent.llm agent.systemPrompt
      (procPrompt agent.userPrompt)
      (orElseStr (aget agentKeys agent.llm.provider) agent.llm.apiKey) =
      Except.error m2) :
    executeIntegrationM serviceKeys callP procP provider context =
      Except.ok { success := false, output := Val.undef, error := some m } ∧
    executeAgentM agentKeys callLLM procPrompt calcCost agent elapsed =
      Except.ok { success := false, output := Val.undef, error := some m2,
                  executionTime := elapsed } ∧
    (∀ (sk : List (String × String)) (cp : IntegrationCall)
        (pp : RecordV → RecordV → RecordV) (p : String)
        (ctx : IntegrationExecutionContext),
      exceptOk (executeIntegrationM sk cp pp p ctx) = true) ∧
    (∀ (sk : List (String × String)) (cl : LLMCall) (pp : String → String)
        (cc : String → String → ℚ → ℚ) (ag : AgentE) (el : ℚ),
      exceptOk (executeAgentM sk cl pp cc ag el) = true) := by
  refine ⟨?_, ?_, ?_, ?_⟩
  · simp only [executeIntegrationM, hkey, hsupp, hcall, Bool.false_eq_true,
      if_false, if_true]
    rfl
  · simp only [executeAgentM, hakey, hasupp, hacall, Bool.false_eq_true,
      if_false, if_true]
    rfl
  · intro sk cp pp p ctx
    simp only [executeIntegrationM]
    exact exceptOk_catchResolve _ _
  · intro sk cl pp cc ag el
    simp only [executeAgentM]
    exact exceptOk_catchResolve _ _

theorem service_boundary_absorbs_witness :
    executeIntegrationM [] slackFailCall keepParams "slack"
        sampleIntegrationContext =
      Except.ok { success := false, output := Val.undef,
                  error := some "Slack API error: channel_not_found" } ∧
    executeAgentM [] openaiFailCall idPromptProc zeroCost sampleAgent 0 =
      Except.ok { success := false, output := Val.undef,
                  error := some "OpenAI API error: 500", executionTime := 0 } := by
  have h := service_boundary_absorbs [] [] slackFailCall keepParams "slack"
    sampleIntegrationContext "Slack API error: channel_not_found"
    openaiFailCall idPromptProc zeroCost sampleAgent 0 "OpenAI API error: 500"
    rfl rfl rfl rfl rfl rfl
  exact ⟨h.1, h.2.1⟩

/-! ## C6: executeFlow resolution -/

/-- C6 (amended): `executeFlow` never rejects; whenever the inner walk
terminates it resolves with the fresh execution id `flow_<now>`, and the
stored execution is `completed`, or `error` with a message string recorded
under `flow`; a node list without a start node resolves immediately with the
`No start node found` error record. -/
theorem executeFlow_resolution :
    (∀ (exec : NodeExec) (fuel : Nat) (nodes : List Node) (edges : List Edge)
        (input : RecordV) (nodeConfigs : List (String × NodeConfig)) (now : Nat)
        (idr : String) (e : FlowExecution),
      executeFlowF exec fuel nodes edges input nodeConfigs now = some (idr, e) →
        idr = "flow_" ++ toString now ∧
        (e.status = FlowStatus.completed ∨
          (e.status = FlowStatus.error ∧ (aget e.errors "flow").isSome = true))) ∧
    (∀ (exec : NodeExec) (fuel : Nat) (nodes : List Node) (edges : List Edge)
        (input : RecordV) (nodeConfigs : List (String × NodeConfig)) (now : Nat),
      nodes.find? (fun n => n.type == some "start" || strHas n.id "start") = none →
        executeFlowF exec fuel nodes edges input nodeConfigs now =
          some ("flow_" ++ toString now,
            { id := "flow_" ++ toString now, status := FlowStatus.error,
              errors := [("flow", "No start node found")],
              startTime := now, endTime := some now })) := by
  constructor
  · intro exec fuel nodes edges input nodeConfigs now idr e h
    rcases hf : nodes.find?
        (fun n => n.type == some "start" || strHas n.id "start") with _ | sn
    · simp only [executeFlowF, hf, Option.some.injEq, Prod.mk.injEq] at h
      obtain ⟨h1, h2⟩ := h
      subst h1
      refine ⟨rfl, Or.inr ⟨?_, ?_⟩⟩
      · rw [← h2]
      · rw [← h2]
        show (aget (aset [] "flow" "No start node found") "flow").isSome = true
        rw [aget_aset_self]
        rfl
    · simp only [executeFlowF, hf] at h
      cases hE : executeNodeF exec fuel sn.id (buildExecutionGraph nodes edges)
          nodes input nodeConfigs
          { id := "flow_" ++ toString now, status := FlowStatus.running,
            startTime := now } with
      | none => rw [hE] at h; exact absurd h (by simp)
      | some r =>
        rw [hE] at h
        cases r with
        | ok e2 =>
          simp only [Option.some.injEq, Prod.mk.injEq] at h
          obtain ⟨h1, h2⟩ := h
          subst h1
          exact ⟨rfl, Or.inl (by rw [← h2])⟩
        | thrown m e2 =>
          simp only [Option.some.injEq, Prod.mk.injEq] at h
          obtain ⟨h1, h2⟩ := h
          subst h1
          refine ⟨rfl, Or.inr ⟨by rw [← h2], ?_⟩⟩
          rw [← h2]
          show (aget (aset e2.errors "flow" m) "flow").isSome = true
          rw [aget_aset_self]
          rfl
  · intro exec fuel nodes edges input nodeConfigs now hnone
    simp only [executeFlowF, hnone]
    rfl

theorem executeFlow_resolution_witness :
    "flow_0" = "flow_" ++ toString 0 ∧
    (({ id := "flow_0", status := FlowStatus.error, currentNode := some "a1",
        results := [], errors := [("a1", "boom"), ("flow", "boom")],
        startTime := 0, endTime := some 0, totalCost := 0 } :
          FlowExecution).status = FlowStatus.completed ∨
      (({ id := "flow_0", status := FlowStatus.error, currentNode := some "a1",
          results := [], errors := [("a1", "boom"), ("flow", "boom")],
          startTime := 0, endTime := some 0, totalCost := 0 } :
            FlowExecution).status = FlowStatus.error ∧
        (aget [("a1", "boom"), ("flow", "boom")] "flow").isSome = true)) :=
  executeFlow_resolution.1 failNodeExec 5 pairNodes pairEdges [] [] 0 "flow_0"
    { id := "flow_0", status := FlowStatus.error, currentNode := some "a1",
      results := [], errors := [("a1", "boom"), ("flow", "boom")],
      startTime := 0, endTime := some 0, totalCost := 0 }
    (by with_unfolding_all decide)

/-- C6 (counterexample): the input above makes `executeFlow` diverge, so it
does not resolve for every node list, edge list, input and config map. -/
theorem retryFlow_never_resolves : retryFlowNeverResolves := by
  intro fuel
  have hfind : List.find?
      (fun n => n.type == some "start" || strHas n.id "start") pairNodes =
      some startNode1 := rfl
  have hid : startNode1.id = "s1" := rfl
  simp only [executeFlowF, hfind, hid, retryFlow_node_diverges fuel]

theorem attemptAlignment_spec_witness :
    ((attemptAlignment sampleLocks "authentication" 102).toOption.map
      (fun p => p.1.lock.attempts) = some (0 + 1)) ∧
    ((attemptAlignment sampleLocks "authentication" 102).toOption.map
      (fun p => p.1.success) =
      some (decide (|(102 : ℚ) - 100| ≤ 5 ∨ 355 ≤ |(102 : ℚ) - 100|))) ∧
    attemptAlignment blockedLocks "authentication" 7 =
      Except.error "Too many attempts. Please reset locks." := by
  have h1 := attemptAlignment_spec sampleLocks "authentication" 102
    { id := "u1_auth", type := "authentication", status := "locked",
      angle := 0, requiredAngle := 100, attempts := 0 } rfl
  have h2 := attemptAlignment_spec blockedLocks "authentication" 7
    { id := "u1_auth", type := "authentication", status := "locked",
      angle := 40, requiredAngle := 100, attempts := 10 } rfl
  exact ⟨(h1.1 (by decide)).1, (h1.1 (by decide)).2.1, h2.2 (by decide)⟩

end Marketplace
